import Mathlib

/-!
# WebCryptoImpl: wiring of the WebCrypto verbs to the platform backend

A shallow embedding of `content/renderer/webcrypto/webcrypto_impl.cc`.

* The Blink value types the file manipulates (`WebArrayBuffer`, `WebCryptoAlgorithm`,
  `WebCryptoKey`, `WebCryptoResult`) are declared in headers outside the tree; they
  are modelled as plain data from the way the file uses them and from the data model
  of the specification, each handle type with an explicit null state.
* The `DCHECK` macros come from base/logging.h, also outside the tree. Following the
  specification a failed check is fatal; every statement below is about builds in
  which the checks are active.
* The seven `...Internal` routines are platform code outside the tree. They are the
  fields of `Backend`, about which nothing is assumed: a routine receives the
  arguments of the verb and the content of its output parameter on entry, and gives
  back its boolean return value and the content of the output parameter on exit
  (a routine that does not store to the output parameter gives back the entry
  content).
* A verb is a computation `Exec Unit` over the result object: it either returns
  normally or stops with a `Fault`, and in both cases the completions made so far
  stay recorded in the result object.
-/

namespace WebKit

/-- Bytes of a buffer (`unsigned char`). -/
abbrev Byte := UInt8

/-- Modelled from the spec: the type `WebArrayBuffer` of WebArrayBuffer.h, which is not
in the tree, the ByteBuffer of the data model: a variable-length byte sequence. The
handle is either null (as built by the default constructor) or refers to `byteLength`
bytes. -/
structure WebArrayBuffer where
  priv : Option (List Byte)
  deriving DecidableEq, Repr

/-- The default constructor `WebArrayBuffer buffer;`. -/
def WebArrayBuffer.null : WebArrayBuffer := ⟨none⟩

/-- The test `isNull()`. -/
def WebArrayBuffer.isNull (b : WebArrayBuffer) : Bool := b.priv.isNone

/-- The accessor `byteLength()`; a null buffer has length 0. -/
def WebArrayBuffer.byteLength (b : WebArrayBuffer) : Nat :=
  match b.priv with
  | none => 0
  | some bytes => bytes.length

/-- The bytes behind `data()`; a null buffer has none. -/
def WebArrayBuffer.data (b : WebArrayBuffer) : List Byte :=
  match b.priv with
  | none => []
  | some bytes => bytes

/-- Modelled from the spec: `WebArrayBuffer::create(numElements, elementByteSize)`,
declared in WebArrayBuffer.h which is not in the tree. It materializes a fresh
zero-filled buffer of `numElements * elementByteSize` bytes; running out of memory is
not modelled. -/
def WebArrayBuffer.create (numElements elementByteSize : Nat) : WebArrayBuffer :=
  ⟨some (List.replicate (numElements * elementByteSize) 0)⟩

/-- Algorithm identifiers. Only `WebCryptoAlgorithmIdAesGcm` is named by the file;
the remaining enumerators of WebCryptoAlgorithm.h are kept as a numbered family. -/
inductive WebCryptoAlgorithmId where
  | WebCryptoAlgorithmIdAesGcm
  | WebCryptoAlgorithmIdOther (tag : Nat)
  deriving DecidableEq, Repr

/-- Modelled from the spec: what a non-null `WebCryptoAlgorithm` (WebCryptoAlgorithm.h,
not in the tree) refers to, the AlgorithmDescriptor of the data model: an identifier and
a parameter pointer (`none` is `NULL`). -/
structure WebCryptoAlgorithmPrivate where
  id : WebCryptoAlgorithmId
  params : Option Nat
  deriving DecidableEq, Repr

/-- A `WebCryptoAlgorithm`; `priv = none` is the null algorithm. -/
structure WebCryptoAlgorithm where
  priv : Option WebCryptoAlgorithmPrivate
  deriving DecidableEq, Repr

/-- The test `isNull()`. -/
def WebCryptoAlgorithm.isNull (a : WebCryptoAlgorithm) : Bool := a.priv.isNone

/-- The factory `WebCryptoAlgorithm::adoptParamsAndCreate(id, params)`. -/
def WebCryptoAlgorithm.adoptParamsAndCreate (id : WebCryptoAlgorithmId)
    (params : Option Nat) : WebCryptoAlgorithm :=
  ⟨some ⟨id, params⟩⟩

/-- Key types. Only `WebCryptoKeyTypeSecret` is named by the file. -/
inductive WebCryptoKeyType where
  | WebCryptoKeyTypeSecret
  | WebCryptoKeyTypeOther (tag : Nat)
  deriving DecidableEq, Repr

/-- The type `WebCryptoKeyUsageMask`: a bit mask held in an integer. -/
abbrev WebCryptoKeyUsageMask := Nat

/-- The type `WebCryptoKeyFormat`: an enumeration, kept as its integer value. -/
abbrev WebCryptoKeyFormat := Nat

/-- The pointer type `WebCryptoKeyHandle*`; `none` is `NULL`. -/
abbrev WebCryptoKeyHandlePtr := Option Nat

/-- Modelled from the spec: what a non-null `WebCryptoKey` (WebCryptoKey.h, not in the
tree) refers to, the KeyHandle of the data model: the five arguments of
`WebCryptoKey::create`, among them the algorithm binding, the extractability flag and the
usage mask. -/
structure WebCryptoKeyPrivate where
  handle : WebCryptoKeyHandlePtr
  type : WebCryptoKeyType
  extractable : Bool
  algorithm : WebCryptoAlgorithm
  usages : WebCryptoKeyUsageMask
  deriving DecidableEq, Repr

/-- A `WebCryptoKey`; `priv = none` is the null key object. -/
structure WebCryptoKey where
  priv : Option WebCryptoKeyPrivate
  deriving DecidableEq, Repr

/-- The factory `WebCryptoKey::create(handle, type, extractable, algorithm, usages)`. -/
def WebCryptoKey.create (handle : WebCryptoKeyHandlePtr) (type : WebCryptoKeyType)
    (extractable : Bool) (algorithm : WebCryptoAlgorithm)
    (usages : WebCryptoKeyUsageMask) : WebCryptoKey :=
  ⟨some ⟨handle, type, extractable, algorithm, usages⟩⟩

/-- One call of a completion method of `WebCryptoResult`. -/
inductive Completion where
  | completeWithError
  | completeWithBuffer (buffer : WebArrayBuffer)
  | completeWithKey (key : WebCryptoKey)
  | completeWithBoolean (b : Bool)
  deriving DecidableEq, Repr

/-- Modelled from the spec: the completion sink `WebCryptoResult` (declared outside the
tree), observed through the completion calls made on it so far, oldest first. -/
structure WebCryptoResult where
  completions : List Completion
  deriving DecidableEq, Repr

end WebKit

namespace content

open WebKit

/-- Ways in which a call stops instead of returning: a `DCHECK` of the file whose
condition is false, an accessor used on a null object (which trips the assertion of the
Blink handle type), and a `memcpy` past the end of a buffer. -/
inductive Fault where
  | dcheck
  | nullDeref
  | outOfBounds
  deriving DecidableEq, Repr

/-- Modelled from the spec: the `DCHECK` family of base/logging.h, which is not in
the tree. A check whose condition is false is fatal: the call stops there and does not
return. This is the behaviour of a build in which the checks are active. -/
def DCHECK {m : Type → Type} [Monad m] [MonadExcept Fault m] (cond : Bool) : m Unit :=
  if cond then pure () else throw Fault.dcheck

/-- The check `DCHECK_LE(a, b)`. -/
def DCHECK_LE {m : Type → Type} [Monad m] [MonadExcept Fault m] (a b : Nat) : m Unit :=
  DCHECK (decide (a ≤ b))

/-- The check `DCHECK_EQ(a, b)`. -/
def DCHECK_EQ {m : Type → Type} {α : Type} [DecidableEq α] [Monad m] [MonadExcept Fault m]
    (a b : α) : m Unit :=
  DCHECK (decide (a = b))

/-- The library routine `memcpy(dst, src, n)`: the first `n` bytes of `dst` become the
first `n` bytes of `src`. Reading or writing past the end of either is a fault. -/
def memcpy (dst src : List Byte) (n : Nat) : Except Fault (List Byte) :=
  if n ≤ src.length ∧ n ≤ dst.length then pure (src.take n ++ dst.drop n)
  else throw Fault.outOfBounds

end content

namespace WebKit

/-- The accessor `algorithm.id()`; it goes through the private part. -/
def WebCryptoAlgorithm.id {m : Type → Type} [Monad m] [MonadExcept content.Fault m]
    (a : WebCryptoAlgorithm) : m WebCryptoAlgorithmId :=
  match a.priv with
  | none => throw content.Fault.nullDeref
  | some p => pure p.id

/-- The accessor `key.handle()`; it goes through the private part. -/
def WebCryptoKey.handle {m : Type → Type} [Monad m] [MonadExcept content.Fault m]
    (k : WebCryptoKey) : m WebCryptoKeyHandlePtr :=
  match k.priv with
  | none => throw content.Fault.nullDeref
  | some p => pure p.handle

/-- The accessor `key.algorithm()`. -/
def WebCryptoKey.algorithm {m : Type → Type} [Monad m] [MonadExcept content.Fault m]
    (k : WebCryptoKey) : m WebCryptoAlgorithm :=
  match k.priv with
  | none => throw content.Fault.nullDeref
  | some p => pure p.algorithm

/-- The accessor `key.extractable()`. -/
def WebCryptoKey.extractable {m : Type → Type} [Monad m] [MonadExcept content.Fault m]
    (k : WebCryptoKey) : m Bool :=
  match k.priv with
  | none => throw content.Fault.nullDeref
  | some p => pure p.extractable

/-- The accessor `key.usages()`. -/
def WebCryptoKey.usages {m : Type → Type} [Monad m] [MonadExcept content.Fault m]
    (k : WebCryptoKey) : m WebCryptoKeyUsageMask :=
  match k.priv with
  | none => throw content.Fault.nullDeref
  | some p => pure p.usages

end WebKit

namespace content

open WebKit

/-- A computation of the dispatcher: it may stop with a `Fault`, and it acts on the
result object, whose recorded completions survive a fault. -/
abbrev Exec := ExceptT Fault (StateM WebCryptoResult)

/-- Run a computation on a result object: how it ended, and the result object then. -/
def Exec.runOn {α : Type} (x : Exec α) (result : WebCryptoResult) :
    Except Fault α × WebCryptoResult :=
  (x.run).run result

/-- The method `result.completeWithError()`. -/
def completeWithError : Exec Unit :=
  modify fun r => ⟨r.completions ++ [Completion.completeWithError]⟩

/-- The method `result.completeWithBuffer(buffer)`. -/
def completeWithBuffer (buffer : WebArrayBuffer) : Exec Unit :=
  modify fun r => ⟨r.completions ++ [Completion.completeWithBuffer buffer]⟩

/-- The method `result.completeWithKey(key)`. -/
def completeWithKey (key : WebCryptoKey) : Exec Unit :=
  modify fun r => ⟨r.completions ++ [Completion.completeWithKey key]⟩

/-- The method `result.completeWithBoolean(b)`. -/
def completeWithBoolean (b : Bool) : Exec Unit :=
  modify fun r => ⟨r.completions ++ [Completion.completeWithBoolean b]⟩

/-- The platform routines behind the verbs. Byte pointers with their sizes are
passed as the byte sequences they denote. The last argument of each routine is the
content of its output parameter on entry; the result is the boolean it returns and
the content of the output parameter on exit. -/
structure Backend where
  EncryptInternal : WebCryptoAlgorithm → WebCryptoKey → List Byte → WebArrayBuffer →
    Bool × WebArrayBuffer
  DecryptInternal : WebCryptoAlgorithm → WebCryptoKey → List Byte → WebArrayBuffer →
    Bool × WebArrayBuffer
  DigestInternal : WebCryptoAlgorithm → List Byte → WebArrayBuffer → Bool × WebArrayBuffer
  GenerateKeyInternal : WebCryptoAlgorithm → Bool → WebCryptoKeyUsageMask → WebCryptoKey →
    Bool × WebCryptoKey
  ImportKeyInternal : WebCryptoKeyFormat → List Byte → WebCryptoAlgorithm → Bool →
    WebCryptoKeyUsageMask → WebCryptoKey → Bool × WebCryptoKey
  SignInternal : WebCryptoAlgorithm → WebCryptoKey → List Byte → WebArrayBuffer →
    Bool × WebArrayBuffer
  VerifySignatureInternal : WebCryptoAlgorithm → WebCryptoKey → List Byte → List Byte →
    Bool → Bool × Bool

namespace WebCryptoImpl

/-- The static helper `WebCryptoImpl::ShrinkBuffer(buffer, new_size)`; the result is
the content of `*buffer` when the call returns. -/
def ShrinkBuffer (buffer : WebArrayBuffer) (new_size : Nat) : Except Fault WebArrayBuffer := do
  DCHECK_LE new_size buffer.byteLength
  if new_size = buffer.byteLength then
    return buffer
  let new_buffer := WebArrayBuffer.create new_size 1
  DCHECK (!new_buffer.isNull)
  let bytes ← memcpy new_buffer.data buffer.data new_size
  let new_buffer : WebArrayBuffer := ⟨some bytes⟩
  return new_buffer

/-- The static helper `WebCryptoImpl::NullKey()`. -/
def NullKey : WebCryptoKey :=
  WebCryptoKey.create none WebCryptoKeyType.WebCryptoKeyTypeSecret false
    (WebCryptoAlgorithm.adoptParamsAndCreate
      WebCryptoAlgorithmId.WebCryptoAlgorithmIdAesGcm none) 0

/-- The verb `WebCryptoImpl::encrypt`. -/
def encrypt (B : Backend) (algorithm : WebCryptoAlgorithm) (key : WebCryptoKey)
    (data : List Byte) (result : WebCryptoResult) : Except Fault Unit × WebCryptoResult :=
  Exec.runOn (do
    DCHECK (!algorithm.isNull)
    let buffer := WebArrayBuffer.null
    let (ok, buffer) := B.EncryptInternal algorithm key data buffer
    if !ok then
      completeWithError
    else
      completeWithBuffer buffer) result

/-- The verb `WebCryptoImpl::decrypt`. -/
def decrypt (B : Backend) (algorithm : WebCryptoAlgorithm) (key : WebCryptoKey)
    (data : List Byte) (result : WebCryptoResult) : Except Fault Unit × WebCryptoResult :=
  Exec.runOn (do
    DCHECK (!algorithm.isNull)
    let buffer := WebArrayBuffer.null
    let (ok, buffer) := B.DecryptInternal algorithm key data buffer
    if !ok then
      completeWithError
    else
      completeWithBuffer buffer) result

/-- The verb `WebCryptoImpl::digest`. -/
def digest (B : Backend) (algorithm : WebCryptoAlgorithm)
    (data : List Byte) (result : WebCryptoResult) : Except Fault Unit × WebCryptoResult :=
  Exec.runOn (do
    DCHECK (!algorithm.isNull)
    let buffer := WebArrayBuffer.null
    let (ok, buffer) := B.DigestInternal algorithm data buffer
    if !ok then
      completeWithError
    else
      completeWithBuffer buffer) result

/-- The verb `WebCryptoImpl::generateKey`. -/
def generateKey (B : Backend) (algorithm : WebCryptoAlgorithm) (extractable : Bool)
    (usage_mask : WebCryptoKeyUsageMask) (result : WebCryptoResult) :
    Except Fault Unit × WebCryptoResult :=
  Exec.runOn (do
    DCHECK (!algorithm.isNull)
    let key := NullKey
    let (ok, key) := B.GenerateKeyInternal algorithm extractable usage_mask key
    if !ok then
      completeWithError
    else
      DCHECK (← key.handle).isSome
      DCHECK_EQ (← algorithm.id) (← (← key.algorithm).id)
      DCHECK_EQ extractable (← key.extractable)
      DCHECK_EQ usage_mask (← key.usages)
      completeWithKey key) result

/-- The verb `WebCryptoImpl::importKey`. -/
def importKey (B : Backend) (format : WebCryptoKeyFormat) (key_data : List Byte)
    (algorithm_or_null : WebCryptoAlgorithm) (extractable : Bool)
    (usage_mask : WebCryptoKeyUsageMask) (result : WebCryptoResult) :
    Except Fault Unit × WebCryptoResult :=
  Exec.runOn (do
    let key := NullKey
    let (ok, key) :=
      B.ImportKeyInternal format key_data algorithm_or_null extractable usage_mask key
    if !ok then
      completeWithError
      return
    DCHECK (← key.handle).isSome
    DCHECK (!(← key.algorithm).isNull)
    DCHECK_EQ extractable (← key.extractable)
    completeWithKey key) result

/-- The verb `WebCryptoImpl::sign`. -/
def sign (B : Backend) (algorithm : WebCryptoAlgorithm) (key : WebCryptoKey)
    (data : List Byte) (result : WebCryptoResult) : Except Fault Unit × WebCryptoResult :=
  Exec.runOn (do
    DCHECK (!algorithm.isNull)
    let buffer := WebArrayBuffer.null
    let (ok, buffer) := B.SignInternal algorithm key data buffer
    if !ok then
      completeWithError
    else
      completeWithBuffer buffer) result

/-- The verb `WebCryptoImpl::verifySignature`. -/
def verifySignature (B : Backend) (algorithm : WebCryptoAlgorithm) (key : WebCryptoKey)
    (signature : List Byte) (data : List Byte) (result : WebCryptoResult) :
    Except Fault Unit × WebCryptoResult :=
  Exec.runOn (do
    DCHECK (!algorithm.isNull)
    let signature_match := false
    let (ok, signature_match) :=
      B.VerifySignatureInternal algorithm key signature data signature_match
    if !ok then
      completeWithError
    else
      completeWithBoolean signature_match) result

end WebCryptoImpl

/-- The completions a call made: those recorded in the result object after the call
beyond the ones it held when the call started. -/
def completionsMade (result : WebCryptoResult)
    (outcome : Except Fault Unit × WebCryptoResult) : List Completion :=
  outcome.2.completions.drop result.completions.length

/-- A call of one of the seven verbs, with its arguments. -/
inductive Call where
  | encrypt (algorithm : WebCryptoAlgorithm) (key : WebCryptoKey) (data : List Byte)
  | decrypt (algorithm : WebCryptoAlgorithm) (key : WebCryptoKey) (data : List Byte)
  | digest (algorithm : WebCryptoAlgorithm) (data : List Byte)
  | generateKey (algorithm : WebCryptoAlgorithm) (extractable : Bool)
      (usage_mask : WebCryptoKeyUsageMask)
  | importKey (format : WebCryptoKeyFormat) (key_data : List Byte)
      (algorithm_or_null : WebCryptoAlgorithm) (extractable : Bool)
      (usage_mask : WebCryptoKeyUsageMask)
  | sign (algorithm : WebCryptoAlgorithm) (key : WebCryptoKey) (data : List Byte)
  | verifySignature (algorithm : WebCryptoAlgorithm) (key : WebCryptoKey)
      (signature : List Byte) (data : List Byte)

/-- Perform a call on a result object. -/
def Call.run (B : Backend) (call : Call) (result : WebCryptoResult) :
    Except Fault Unit × WebCryptoResult :=
  match call with
  | Call.encrypt algorithm key data => WebCryptoImpl.encrypt B algorithm key data result
  | Call.decrypt algorithm key data => WebCryptoImpl.decrypt B algorithm key data result
  | Call.digest algorithm data => WebCryptoImpl.digest B algorithm data result
  | Call.generateKey algorithm extractable usage_mask =>
      WebCryptoImpl.generateKey B algorithm extractable usage_mask result
  | Call.importKey format key_data algorithm_or_null extractable usage_mask =>
      WebCryptoImpl.importKey B format key_data algorithm_or_null extractable usage_mask result
  | Call.sign algorithm key data => WebCryptoImpl.sign B algorithm key data result
  | Call.verifySignature algorithm key signature data =>
      WebCryptoImpl.verifySignature B algorithm key signature data result

/-- The boolean that the backend routine of the verb returns, on the arguments the verb
hands to it and the output parameter as the verb initialises it. -/
def Call.backendReturn (B : Backend) (call : Call) : Bool :=
  match call with
  | Call.encrypt algorithm key data =>
      (B.EncryptInternal algorithm key data WebArrayBuffer.null).1
  | Call.decrypt algorithm key data =>
      (B.DecryptInternal algorithm key data WebArrayBuffer.null).1
  | Call.digest algorithm data => (B.DigestInternal algorithm data WebArrayBuffer.null).1
  | Call.generateKey algorithm extractable usage_mask =>
      (B.GenerateKeyInternal algorithm extractable usage_mask WebCryptoImpl.NullKey).1
  | Call.importKey format key_data algorithm_or_null extractable usage_mask =>
      (B.ImportKeyInternal format key_data algorithm_or_null extractable usage_mask
        WebCryptoImpl.NullKey).1
  | Call.sign algorithm key data => (B.SignInternal algorithm key data WebArrayBuffer.null).1
  | Call.verifySignature algorithm key signature data =>
      (B.VerifySignatureInternal algorithm key signature data false).1

/-- The condition of the check a verb makes on entry, before it reaches the backend:
`!algorithm.isNull()` for six verbs; `importKey` makes none. -/
def Call.entryCheck (call : Call) : Bool :=
  match call with
  | Call.encrypt algorithm _ _ => !algorithm.isNull
  | Call.decrypt algorithm _ _ => !algorithm.isNull
  | Call.digest algorithm _ => !algorithm.isNull
  | Call.generateKey algorithm _ _ => !algorithm.isNull
  | Call.importKey _ _ _ _ _ => true
  | Call.sign algorithm _ _ => !algorithm.isNull
  | Call.verifySignature algorithm _ _ _ => !algorithm.isNull

/-! ## Sample inputs -/

/-- A sample backend. Ciphers and signing echo their input, decryption rejects an empty
input, key generation refuses the empty usage mask, import accepts format 0 only and
infers AES-GCM when no algorithm is given, and verification rejects an empty signature
as malformed and otherwise compares the signature with the data. -/
def sampleBackend : Backend where
  EncryptInternal := fun _ _ data _ => (true, ⟨some data⟩)
  DecryptInternal := fun _ _ data buffer =>
    if data.isEmpty then (false, buffer) else (true, ⟨some data⟩)
  DigestInternal := fun _ data _ => (true, ⟨some [UInt8.ofNat data.length]⟩)
  GenerateKeyInternal := fun algorithm extractable usage_mask key =>
    if usage_mask = 0 then (false, key)
    else (true, WebCryptoKey.create (some 1) WebCryptoKeyType.WebCryptoKeyTypeSecret
      extractable algorithm usage_mask)
  ImportKeyInternal := fun format _ algorithm_or_null extractable usage_mask key =>
    if format = 0 then
      (true, WebCryptoKey.create (some 2) WebCryptoKeyType.WebCryptoKeyTypeSecret extractable
        (if algorithm_or_null.isNull then
          WebCryptoAlgorithm.adoptParamsAndCreate
            WebCryptoAlgorithmId.WebCryptoAlgorithmIdAesGcm none
         else algorithm_or_null) usage_mask)
    else (false, key)
  SignInternal := fun _ _ data _ => (true, ⟨some data⟩)
  VerifySignatureInternal := fun _ _ signature data signature_match =>
    if signature.isEmpty then (false, signature_match) else (true, signature == data)

/-- A backend every routine of which reports success and leaves its output parameter
as it found it. -/
def idleBackend : Backend where
  EncryptInternal := fun _ _ _ buffer => (true, buffer)
  DecryptInternal := fun _ _ _ buffer => (true, buffer)
  DigestInternal := fun _ _ buffer => (true, buffer)
  GenerateKeyInternal := fun _ _ _ key => (true, key)
  ImportKeyInternal := fun _ _ _ _ _ key => (true, key)
  SignInternal := fun _ _ _ buffer => (true, buffer)
  VerifySignatureInternal := fun _ _ _ _ signature_match => (true, signature_match)

/-- A backend every routine of which scribbles on its output parameter and then
reports failure. -/
def failingBackend : Backend where
  EncryptInternal := fun _ _ data _ => (false, ⟨some data⟩)
  DecryptInternal := fun _ _ data _ => (false, ⟨some data⟩)
  DigestInternal := fun _ data _ => (false, ⟨some data⟩)
  GenerateKeyInternal := fun algorithm extractable usage_mask _ =>
    (false, WebCryptoKey.create (some 7) WebCryptoKeyType.WebCryptoKeyTypeSecret
      extractable algorithm usage_mask)
  ImportKeyInternal := fun _ _ algorithm_or_null extractable usage_mask _ =>
    (false, WebCryptoKey.create (some 7) WebCryptoKeyType.WebCryptoKeyTypeSecret
      extractable algorithm_or_null usage_mask)
  SignInternal := fun _ _ data _ => (false, ⟨some data⟩)
  VerifySignatureInternal := fun _ _ _ _ _ => (false, true)

/-- A sample algorithm: a non-null descriptor with identifier number 3. -/
def sampleAlgorithm : WebCryptoAlgorithm :=
  WebCryptoAlgorithm.adoptParamsAndCreate (WebCryptoAlgorithmId.WebCryptoAlgorithmIdOther 3) none

/-- A sample key with a non-null handle. -/
def sampleKey : WebCryptoKey :=
  WebCryptoKey.create (some 5) WebCryptoKeyType.WebCryptoKeyTypeSecret true sampleAlgorithm 3

/-- A result object on which no completion has been made. -/
def freshResult : WebCryptoResult := ⟨[]⟩

/-- The ten bytes 0..9. -/
def tenBytes : WebArrayBuffer := ⟨some [0, 1, 2, 3, 4, 5, 6, 7, 8, 9]⟩

/-! ## Running the computations -/

theorem Exec.runOn_pure {α : Type} (a : α) (r : WebCryptoResult) :
    Exec.runOn (pure a) r = (Except.ok a, r) := rfl

theorem Exec.runOn_bind {α β : Type} (x : Exec α) (f : α → Exec β) (r : WebCryptoResult) :
    Exec.runOn (x >>= f) r =
      match Exec.runOn x r with
      | (Except.ok a, r1) => Exec.runOn (f a) r1
      | (Except.error e, r1) => (Except.error e, r1) := by
  unfold Exec.runOn
  simp only [ExceptT.run_bind, StateT.run_bind]
  rcases StateT.run (ExceptT.run x) r with ⟨_ | _, r1⟩ <;> rfl

theorem Exec.runOn_ite {α : Type} (c : Prop) [Decidable c] (x y : Exec α)
    (r : WebCryptoResult) :
    Exec.runOn (if c then x else y) r = if c then Exec.runOn x r else Exec.runOn y r := by
  split <;> rfl

theorem Exec.runOn_DCHECK (c : Bool) (r : WebCryptoResult) :
    Exec.runOn (DCHECK c) r =
      if c then (Except.ok (), r) else (Except.error Fault.dcheck, r) := by
  cases c <;> rfl

theorem Exec.runOn_completeWithError (r : WebCryptoResult) :
    Exec.runOn completeWithError r =
      (Except.ok (), ⟨r.completions ++ [Completion.completeWithError]⟩) := rfl

theorem Exec.runOn_completeWithBuffer (b : WebArrayBuffer) (r : WebCryptoResult) :
    Exec.runOn (completeWithBuffer b) r =
      (Except.ok (), ⟨r.completions ++ [Completion.completeWithBuffer b]⟩) := rfl

theorem Exec.runOn_completeWithKey (k : WebCryptoKey) (r : WebCryptoResult) :
    Exec.runOn (completeWithKey k) r =
      (Except.ok (), ⟨r.completions ++ [Completion.completeWithKey k]⟩) := rfl

theorem Exec.runOn_completeWithBoolean (b : Bool) (r : WebCryptoResult) :
    Exec.runOn (completeWithBoolean b) r =
      (Except.ok (), ⟨r.completions ++ [Completion.completeWithBoolean b]⟩) := rfl

theorem Exec.runOn_handle (k : WebCryptoKey) (r : WebCryptoResult) :
    Exec.runOn (WebCryptoKey.handle k) r =
      match k.priv with
      | none => (Except.error Fault.nullDeref, r)
      | some p => (Except.ok p.handle, r) := by
  rcases k with ⟨_ | p⟩ <;> rfl

theorem Exec.runOn_algorithm (k : WebCryptoKey) (r : WebCryptoResult) :
    Exec.runOn (WebCryptoKey.algorithm k) r =
      match k.priv with
      | none => (Except.error Fault.nullDeref, r)
      | some p => (Except.ok p.algorithm, r) := by
  rcases k with ⟨_ | p⟩ <;> rfl

theorem Exec.runOn_extractable (k : WebCryptoKey) (r : WebCryptoResult) :
    Exec.runOn (WebCryptoKey.extractable k) r =
      match k.priv with
      | none => (Except.error Fault.nullDeref, r)
      | some p => (Except.ok p.extractable, r) := by
  rcases k with ⟨_ | p⟩ <;> rfl

theorem Exec.runOn_usages (k : WebCryptoKey) (r : WebCryptoResult) :
    Exec.runOn (WebCryptoKey.usages k) r =
      match k.priv with
      | none => (Except.error Fault.nullDeref, r)
      | some p => (Except.ok p.usages, r) := by
  rcases k with ⟨_ | p⟩ <;> rfl

theorem Exec.runOn_id (a : WebCryptoAlgorithm) (r : WebCryptoResult) :
    Exec.runOn (WebCryptoAlgorithm.id a) r =
      match a.priv with
      | none => (Except.error Fault.nullDeref, r)
      | some p => (Except.ok p.id, r) := by
  rcases a with ⟨_ | p⟩ <;> rfl

theorem completionsMade_same (x : Except Fault Unit) (r : WebCryptoResult) :
    completionsMade r (x, r) = [] := by
  simp [completionsMade]

theorem completionsMade_append (x : Except Fault Unit) (r : WebCryptoResult)
    (l : List Completion) :
    completionsMade r (x, ⟨r.completions ++ l⟩) = l := by
  simp [completionsMade]

namespace WebCryptoImpl

/-! ## What each verb computes -/

theorem encrypt_eq (B : Backend) (algorithm : WebCryptoAlgorithm) (key : WebCryptoKey)
    (data : List Byte) (r : WebCryptoResult) :
    encrypt B algorithm key data r =
      if algorithm.isNull then (Except.error Fault.dcheck, r)
      else if (B.EncryptInternal algorithm key data WebArrayBuffer.null).1 then
        (Except.ok (), ⟨r.completions ++ [Completion.completeWithBuffer
          (B.EncryptInternal algorithm key data WebArrayBuffer.null).2]⟩)
      else (Except.ok (), ⟨r.completions ++ [Completion.completeWithError]⟩) := by
  obtain ⟨enc, dec, dig, gen, imp, sgn, ver⟩ := B
  simp only [encrypt]
  rcases enc algorithm key data WebArrayBuffer.null with ⟨_ | _, buf⟩ <;>
    rcases algorithm with ⟨_ | p⟩ <;> rfl

theorem decrypt_eq (B : Backend) (algorithm : WebCryptoAlgorithm) (key : WebCryptoKey)
    (data : List Byte) (r : WebCryptoResult) :
    decrypt B algorithm key data r =
      if algorithm.isNull then (Except.error Fault.dcheck, r)
      else if (B.DecryptInternal algorithm key data WebArrayBuffer.null).1 then
        (Except.ok (), ⟨r.completions ++ [Completion.completeWithBuffer
          (B.DecryptInternal algorithm key data WebArrayBuffer.null).2]⟩)
      else (Except.ok (), ⟨r.completions ++ [Completion.completeWithError]⟩) := by
  obtain ⟨enc, dec, dig, gen, imp, sgn, ver⟩ := B
  simp only [decrypt]
  rcases dec algorithm key data WebArrayBuffer.null with ⟨_ | _, buf⟩ <;>
    rcases algorithm with ⟨_ | p⟩ <;> rfl

theorem digest_eq (B : Backend) (algorithm : WebCryptoAlgorithm)
    (data : List Byte) (r : WebCryptoResult) :
    digest B algorithm data r =
      if algorithm.isNull then (Except.error Fault.dcheck, r)
      else if (B.DigestInternal algorithm data WebArrayBuffer.null).1 then
        (Except.ok (), ⟨r.completions ++ [Completion.completeWithBuffer
          (B.DigestInternal algorithm data WebArrayBuffer.null).2]⟩)
      else (Except.ok (), ⟨r.completions ++ [Completion.completeWithError]⟩) := by
  obtain ⟨enc, dec, dig, gen, imp, sgn, ver⟩ := B
  simp only [digest]
  rcases dig algorithm data WebArrayBuffer.null with ⟨_ | _, buf⟩ <;>
    rcases algorithm with ⟨_ | p⟩ <;> rfl

theorem sign_eq (B : Backend) (algorithm : WebCryptoAlgorithm) (key : WebCryptoKey)
    (data : List Byte) (r : WebCryptoResult) :
    sign B algorithm key data r =
      if algorithm.isNull then (Except.error Fault.dcheck, r)
      else if (B.SignInternal algorithm key data WebArrayBuffer.null).1 then
        (Except.ok (), ⟨r.completions ++ [Completion.completeWithBuffer
          (B.SignInternal algorithm key data WebArrayBuffer.null).2]⟩)
      else (Except.ok (), ⟨r.completions ++ [Completion.completeWithError]⟩) := by
  obtain ⟨enc, dec, dig, gen, imp, sgn, ver⟩ := B
  simp only [sign]
  rcases sgn algorithm key data WebArrayBuffer.null with ⟨_ | _, buf⟩ <;>
    rcases algorithm with ⟨_ | p⟩ <;> rfl

theorem verifySignature_eq (B : Backend) (algorithm : WebCryptoAlgorithm)
    (key : WebCryptoKey) (signature data : List Byte) (r : WebCryptoResult) :
    verifySignature B algorithm key signature data r =
      if algorithm.isNull then (Except.error Fault.dcheck, r)
      else if (B.VerifySignatureInternal algorithm key signature data false).1 then
        (Except.ok (), ⟨r.completions ++ [Completion.completeWithBoolean
          (B.VerifySignatureInternal algorithm key signature data false).2]⟩)
      else (Except.ok (), ⟨r.completions ++ [Completion.completeWithError]⟩) := by
  obtain ⟨enc, dec, dig, gen, imp, sgn, ver⟩ := B
  simp only [verifySignature]
  rcases ver algorithm key signature data false with ⟨_ | _, m⟩ <;>
    rcases algorithm with ⟨_ | p⟩ <;> rfl

theorem generateKey_of_null (B : Backend) (algorithm : WebCryptoAlgorithm) (extractable : Bool)
    (usage_mask : WebCryptoKeyUsageMask) (r : WebCryptoResult)
    (hnull : algorithm.isNull = true) :
    generateKey B algorithm extractable usage_mask r = (Except.error Fault.dcheck, r) := by
  rcases algorithm with ⟨_ | p⟩
  · rfl
  · simp [WebCryptoAlgorithm.isNull] at hnull

theorem generateKey_of_failure (B : Backend) (algorithm : WebCryptoAlgorithm)
    (extractable : Bool) (usage_mask : WebCryptoKeyUsageMask) (r : WebCryptoResult)
    (hnull : algorithm.isNull = false)
    (hB : (B.GenerateKeyInternal algorithm extractable usage_mask NullKey).1 = false) :
    generateKey B algorithm extractable usage_mask r =
      (Except.ok (), ⟨r.completions ++ [Completion.completeWithError]⟩) := by
  revert hB
  obtain ⟨enc, dec, dig, gen, imp, sgn, ver⟩ := B
  simp only [generateKey]
  generalize gen algorithm extractable usage_mask NullKey = g
  rcases g with ⟨_ | _, k⟩
  · rcases algorithm with ⟨_ | p⟩
    · simp [WebCryptoAlgorithm.isNull] at hnull
    · intro _
      rfl
  · simp

/-- The outcome of `generateKey` once the backend has reported success: either the key
passes the four checks and is delivered, or the call stops and completes nothing. -/
theorem generateKey_of_success (B : Backend) (algorithm : WebCryptoAlgorithm)
    (extractable : Bool) (usage_mask : WebCryptoKeyUsageMask) (r : WebCryptoResult)
    (hnull : algorithm.isNull = false)
    (hB : (B.GenerateKeyInternal algorithm extractable usage_mask NullKey).1 = true) :
    (∃ f, generateKey B algorithm extractable usage_mask r = (Except.error f, r)) ∨
    ((∃ p a b, (B.GenerateKeyInternal algorithm extractable usage_mask NullKey).2.priv = some p ∧
        p.handle.isSome = true ∧ algorithm.priv = some a ∧ p.algorithm.priv = some b ∧
        a.id = b.id ∧ p.extractable = extractable ∧ p.usages = usage_mask) ∧
      generateKey B algorithm extractable usage_mask r =
        (Except.ok (), ⟨r.completions ++ [Completion.completeWithKey
          (B.GenerateKeyInternal algorithm extractable usage_mask NullKey).2]⟩)) := by
  revert hB
  obtain ⟨enc, dec, dig, gen, imp, sgn, ver⟩ := B
  simp only [generateKey, Exec.runOn_bind, Exec.runOn_ite, Exec.runOn_DCHECK, DCHECK_EQ,
    Exec.runOn_completeWithError, Exec.runOn_completeWithKey, Exec.runOn_handle,
    Exec.runOn_algorithm, Exec.runOn_usages, Exec.runOn_id,
    Exec.runOn_extractable]
  rcases algorithm with ⟨_ | a⟩
  · simp [WebCryptoAlgorithm.isNull] at hnull
  generalize gen ⟨some a⟩ extractable usage_mask NullKey = g
  rcases g with ⟨_ | _, ⟨_ | ⟨h, t, e2, ⟨_ | b⟩, us⟩⟩⟩
  all_goals simp [WebCryptoAlgorithm.isNull]
  all_goals split_ifs <;> simp_all

/-- Conversely a key that passes the four checks is delivered. -/
theorem generateKey_delivers (B : Backend) (algorithm : WebCryptoAlgorithm)
    (extractable : Bool) (usage_mask : WebCryptoKeyUsageMask) (r : WebCryptoResult)
    (a b : WebCryptoAlgorithmPrivate) (h : Nat) (t : WebCryptoKeyType)
    (halg : algorithm.priv = some a) (hid : a.id = b.id)
    (hB : B.GenerateKeyInternal algorithm extractable usage_mask NullKey =
      (true, WebCryptoKey.create (some h) t extractable ⟨some b⟩ usage_mask)) :
    generateKey B algorithm extractable usage_mask r =
      (Except.ok (), ⟨r.completions ++ [Completion.completeWithKey
        (WebCryptoKey.create (some h) t extractable ⟨some b⟩ usage_mask)]⟩) := by
  revert hB
  obtain ⟨enc, dec, dig, gen, imp, sgn, ver⟩ := B
  simp only [generateKey, Exec.runOn_bind, Exec.runOn_ite, Exec.runOn_DCHECK, DCHECK_EQ,
    Exec.runOn_completeWithError, Exec.runOn_completeWithKey, Exec.runOn_handle,
    Exec.runOn_algorithm, Exec.runOn_usages, Exec.runOn_id,
    Exec.runOn_extractable]
  rcases algorithm with ⟨_ | a2⟩
  · simp at halg
  simp only [Option.some.injEq] at halg
  subst halg
  intro hB
  rw [hB]
  simp [WebCryptoAlgorithm.isNull, WebCryptoKey.create, hid]

theorem importKey_of_failure (B : Backend) (format : WebCryptoKeyFormat)
    (key_data : List Byte) (algorithm_or_null : WebCryptoAlgorithm) (extractable : Bool)
    (usage_mask : WebCryptoKeyUsageMask) (r : WebCryptoResult)
    (hB : (B.ImportKeyInternal format key_data algorithm_or_null extractable usage_mask
      NullKey).1 = false) :
    importKey B format key_data algorithm_or_null extractable usage_mask r =
      (Except.ok (), ⟨r.completions ++ [Completion.completeWithError]⟩) := by
  revert hB
  obtain ⟨enc, dec, dig, gen, imp, sgn, ver⟩ := B
  simp only [importKey]
  generalize imp format key_data algorithm_or_null extractable usage_mask NullKey = g
  rcases g with ⟨_ | _, k⟩
  · intro _
    rfl
  · simp

/-- The outcome of `importKey` once the backend has reported success: either the key
passes the three checks and is delivered, or the call stops and completes nothing. -/
theorem importKey_of_success (B : Backend) (format : WebCryptoKeyFormat)
    (key_data : List Byte) (algorithm_or_null : WebCryptoAlgorithm) (extractable : Bool)
    (usage_mask : WebCryptoKeyUsageMask) (r : WebCryptoResult)
    (hB : (B.ImportKeyInternal format key_data algorithm_or_null extractable usage_mask
      NullKey).1 = true) :
    (∃ f, importKey B format key_data algorithm_or_null extractable usage_mask r =
      (Except.error f, r)) ∨
    ((∃ p b, (B.ImportKeyInternal format key_data algorithm_or_null extractable usage_mask
          NullKey).2.priv = some p ∧
        p.handle.isSome = true ∧ p.algorithm.priv = some b ∧ p.extractable = extractable) ∧
      importKey B format key_data algorithm_or_null extractable usage_mask r =
        (Except.ok (), ⟨r.completions ++ [Completion.completeWithKey
          (B.ImportKeyInternal format key_data algorithm_or_null extractable usage_mask
            NullKey).2]⟩)) := by
  revert hB
  obtain ⟨enc, dec, dig, gen, imp, sgn, ver⟩ := B
  simp only [importKey, Exec.runOn_bind, Exec.runOn_ite, Exec.runOn_DCHECK, DCHECK_EQ,
    Exec.runOn_completeWithError, Exec.runOn_completeWithKey, Exec.runOn_handle,
    Exec.runOn_algorithm, Exec.runOn_usages, Exec.runOn_id,
    Exec.runOn_extractable, Exec.runOn_pure]
  generalize imp format key_data algorithm_or_null extractable usage_mask NullKey = g
  rcases g with ⟨_ | _, ⟨_ | ⟨h, t, e2, ⟨_ | b⟩, us⟩⟩⟩
  all_goals simp [WebCryptoAlgorithm.isNull]
  all_goals split_ifs <;> simp_all

/-- Conversely an imported key that passes the three checks is delivered. -/
theorem importKey_delivers (B : Backend) (format : WebCryptoKeyFormat)
    (key_data : List Byte) (algorithm_or_null : WebCryptoAlgorithm) (extractable : Bool)
    (usage_mask : WebCryptoKeyUsageMask) (r : WebCryptoResult)
    (b : WebCryptoAlgorithmPrivate) (h : Nat) (t : WebCryptoKeyType)
    (us : WebCryptoKeyUsageMask)
    (hB : B.ImportKeyInternal format key_data algorithm_or_null extractable usage_mask NullKey =
      (true, WebCryptoKey.create (some h) t extractable ⟨some b⟩ us)) :
    importKey B format key_data algorithm_or_null extractable usage_mask r =
      (Except.ok (), ⟨r.completions ++ [Completion.completeWithKey
        (WebCryptoKey.create (some h) t extractable ⟨some b⟩ us)]⟩) := by
  revert hB
  obtain ⟨enc, dec, dig, gen, imp, sgn, ver⟩ := B
  simp only [importKey, Exec.runOn_bind, Exec.runOn_ite, Exec.runOn_DCHECK, DCHECK_EQ,
    Exec.runOn_completeWithError, Exec.runOn_completeWithKey, Exec.runOn_handle,
    Exec.runOn_algorithm, Exec.runOn_usages, Exec.runOn_id,
    Exec.runOn_extractable, Exec.runOn_pure]
  intro hB
  rw [hB]
  simp [WebCryptoAlgorithm.isNull, WebCryptoKey.create]

theorem data_length_eq_byteLength (buffer : WebArrayBuffer) :
    buffer.data.length = buffer.byteLength := by
  rcases buffer with ⟨_ | bytes⟩ <;> rfl

theorem ShrinkBuffer_eq (buffer : WebArrayBuffer) (new_size : Nat) :
    ShrinkBuffer buffer new_size =
      if new_size ≤ buffer.byteLength then
        (if new_size = buffer.byteLength then Except.ok buffer
         else Except.ok ⟨some (buffer.data.take new_size)⟩)
      else Except.error Fault.dcheck := by
  unfold ShrinkBuffer
  by_cases hle : new_size ≤ buffer.byteLength
  · by_cases heq : new_size = buffer.byteLength
    · simp [DCHECK_LE, DCHECK, hle, heq]
      rfl
    · have hdata : new_size ≤ buffer.data.length := by
        rw [data_length_eq_byteLength]
        exact hle
      have hdst : (WebArrayBuffer.create new_size 1).data = List.replicate new_size 0 := by
        simp [WebArrayBuffer.create, WebArrayBuffer.data]
      have hnn : (WebArrayBuffer.create new_size 1).isNull = false := rfl
      simp [DCHECK_LE, DCHECK, hle, heq, memcpy, hdst, hnn, hdata]
      rfl
  · simp [DCHECK_LE, DCHECK, hle]
    rfl

end WebCryptoImpl

open WebCryptoImpl

/-- Every call either stops, having completed nothing, or returns, having completed
once. -/
theorem Call.run_cases (B : Backend) (call : Call) (r : WebCryptoResult) :
    (∃ f, call.run B r = (Except.error f, r)) ∨
    (∃ c, call.run B r = (Except.ok (), ⟨r.completions ++ [c]⟩)) := by
  cases call with
  | encrypt algorithm key data =>
    simp only [Call.run, encrypt_eq]
    split_ifs
    · exact Or.inl ⟨_, rfl⟩
    · exact Or.inr ⟨_, rfl⟩
    · exact Or.inr ⟨_, rfl⟩
  | decrypt algorithm key data =>
    simp only [Call.run, decrypt_eq]
    split_ifs
    · exact Or.inl ⟨_, rfl⟩
    · exact Or.inr ⟨_, rfl⟩
    · exact Or.inr ⟨_, rfl⟩
  | digest algorithm data =>
    simp only [Call.run, digest_eq]
    split_ifs
    · exact Or.inl ⟨_, rfl⟩
    · exact Or.inr ⟨_, rfl⟩
    · exact Or.inr ⟨_, rfl⟩
  | sign algorithm key data =>
    simp only [Call.run, sign_eq]
    split_ifs
    · exact Or.inl ⟨_, rfl⟩
    · exact Or.inr ⟨_, rfl⟩
    · exact Or.inr ⟨_, rfl⟩
  | verifySignature algorithm key signature data =>
    simp only [Call.run, verifySignature_eq]
    split_ifs
    · exact Or.inl ⟨_, rfl⟩
    · exact Or.inr ⟨_, rfl⟩
    · exact Or.inr ⟨_, rfl⟩
  | generateKey algorithm extractable usage_mask =>
    simp only [Call.run]
    cases hnull : algorithm.isNull
    · cases hB : (B.GenerateKeyInternal algorithm extractable usage_mask NullKey).1
      · exact Or.inr ⟨_, generateKey_of_failure B algorithm extractable usage_mask r hnull hB⟩
      · rcases generateKey_of_success B algorithm extractable usage_mask r hnull hB with
          hf | ⟨_, hk⟩
        · exact Or.inl hf
        · exact Or.inr ⟨_, hk⟩
    · exact Or.inl ⟨_, generateKey_of_null B algorithm extractable usage_mask r hnull⟩
  | importKey format key_data algorithm_or_null extractable usage_mask =>
    simp only [Call.run]
    cases hB : (B.ImportKeyInternal format key_data algorithm_or_null extractable usage_mask
      NullKey).1
    · exact Or.inr ⟨_, importKey_of_failure B format key_data algorithm_or_null extractable
        usage_mask r hB⟩
    · rcases importKey_of_success B format key_data algorithm_or_null extractable usage_mask
        r hB with hf | ⟨_, hk⟩
      · exact Or.inl hf
      · exact Or.inr ⟨_, hk⟩

/-! ## The claims -/

/-- C1: a call of any of the seven verbs that returns normally (no check stopped it) has
made exactly one completion on the result object, for every input and every backend:
the result object then holds what it held before followed by that one completion. -/
theorem call_completes_exactly_once (B : Backend) (call : Call) (r : WebCryptoResult)
    (hret : (call.run B r).1 = Except.ok ()) :
    (completionsMade r (call.run B r)).length = 1 ∧
    ∃ c, (call.run B r).2.completions = r.completions ++ [c] := by
  rcases Call.run_cases B call r with ⟨f, hf⟩ | ⟨c, hc⟩
  · rw [hf] at hret
    cases hret
  · rw [hc]
    exact ⟨by rw [completionsMade_append]; rfl, c, rfl⟩

/-- Witness for C1: encryption with the sample backend returns and completes once. -/
theorem call_completes_exactly_once_witness :
    ((Call.encrypt sampleAlgorithm sampleKey [1, 2, 3]).run sampleBackend freshResult).1 =
      Except.ok () ∧
    ((completionsMade freshResult
      ((Call.encrypt sampleAlgorithm sampleKey [1, 2, 3]).run sampleBackend freshResult)).length
        = 1 ∧
     ∃ c, ((Call.encrypt sampleAlgorithm sampleKey [1, 2, 3]).run sampleBackend
        freshResult).2.completions = freshResult.completions ++ [c]) :=
  ⟨rfl, call_completes_exactly_once sampleBackend
    (Call.encrypt sampleAlgorithm sampleKey [1, 2, 3]) freshResult rfl⟩

/-- C2: when the backend routine of a verb reports failure, the call makes no completion
other than `completeWithError`, whatever the routine left in its output parameter: if
the entry check of the verb holds the call returns having completed with the error and
nothing else, and otherwise it stops at the check having completed nothing. `importKey`
has no entry check, so on backend failure it always completes with the error alone and
never reaches `completeWithKey`. -/
theorem backend_failure_completes_with_error_only (B : Backend) (call : Call)
    (r : WebCryptoResult) (hfail : call.backendReturn B = false) :
    call.run B r =
      (if call.entryCheck then
        (Except.ok (), ⟨r.completions ++ [Completion.completeWithError]⟩)
       else (Except.error Fault.dcheck, r)) ∧
    (∀ c ∈ completionsMade r (call.run B r), c = Completion.completeWithError) ∧
    (∀ format key_data algorithm_or_null extractable usage_mask,
      call = Call.importKey format key_data algorithm_or_null extractable usage_mask →
      importKey B format key_data algorithm_or_null extractable usage_mask r =
        (Except.ok (), ⟨r.completions ++ [Completion.completeWithError]⟩)) := by
  have key : call.run B r =
      (if call.entryCheck then
        (Except.ok (), ⟨r.completions ++ [Completion.completeWithError]⟩)
       else (Except.error Fault.dcheck, r)) := by
    cases call with
    | encrypt algorithm key data =>
      simp only [Call.backendReturn] at hfail
      simp only [Call.run, Call.entryCheck, encrypt_eq, hfail]
      by_cases hnull : algorithm.isNull = true <;> simp [hnull]
    | decrypt algorithm key data =>
      simp only [Call.backendReturn] at hfail
      simp only [Call.run, Call.entryCheck, decrypt_eq, hfail]
      by_cases hnull : algorithm.isNull = true <;> simp [hnull]
    | digest algorithm data =>
      simp only [Call.backendReturn] at hfail
      simp only [Call.run, Call.entryCheck, digest_eq, hfail]
      by_cases hnull : algorithm.isNull = true <;> simp [hnull]
    | sign algorithm key data =>
      simp only [Call.backendReturn] at hfail
      simp only [Call.run, Call.entryCheck, sign_eq, hfail]
      by_cases hnull : algorithm.isNull = true <;> simp [hnull]
    | verifySignature algorithm key signature data =>
      simp only [Call.backendReturn] at hfail
      simp only [Call.run, Call.entryCheck, verifySignature_eq, hfail]
      by_cases hnull : algorithm.isNull = true <;> simp [hnull]
    | generateKey algorithm extractable usage_mask =>
      simp only [Call.backendReturn] at hfail
      simp only [Call.run, Call.entryCheck]
      by_cases hnull : algorithm.isNull = true
      · rw [generateKey_of_null B algorithm extractable usage_mask r hnull]
        simp [hnull]
      · have hn : algorithm.isNull = false := by simpa using hnull
        rw [generateKey_of_failure B algorithm extractable usage_mask r hn hfail]
        simp [hn]
    | importKey format key_data algorithm_or_null extractable usage_mask =>
      simp only [Call.backendReturn] at hfail
      simp only [Call.run, Call.entryCheck]
      exact importKey_of_failure B format key_data algorithm_or_null extractable usage_mask
        r hfail
  refine ⟨key, ?_, ?_⟩
  · rw [key]
    cases call.entryCheck
    · intro c hc
      rw [if_neg (by simp), completionsMade_same] at hc
      cases hc
    · intro c hc
      rw [if_pos rfl, completionsMade_append] at hc
      simpa using hc
  · intro format key_data algorithm_or_null extractable usage_mask hcall
    subst hcall
    exact importKey_of_failure B format key_data algorithm_or_null extractable usage_mask
      r hfail

/-- Witness for C2: `importKey` with a backend that stores a well-formed key and then
reports failure completes with the error only. -/
theorem backend_failure_completes_with_error_only_witness :
    (Call.importKey 9 [1, 2] sampleAlgorithm true 3).backendReturn failingBackend = false ∧
    (Call.importKey 9 [1, 2] sampleAlgorithm true 3).run failingBackend freshResult =
      (Except.ok (), ⟨[Completion.completeWithError]⟩) :=
  ⟨rfl, (backend_failure_completes_with_error_only failingBackend
    (Call.importKey 9 [1, 2] sampleAlgorithm true 3) freshResult rfl).1⟩

/-- C3: for a non-null algorithm `verifySignature` returns, it completes with the error
exactly when `VerifySignatureInternal` reports failure, and it completes with
`Boolean(m)` exactly when `VerifySignatureInternal` reports success and `m` is the match
value it left in its output parameter. In particular a success with the match value
false gives `Boolean(false)` and no error. -/
theorem verifySignature_error_iff_backend_failure (B : Backend)
    (algorithm : WebCryptoAlgorithm) (key : WebCryptoKey) (signature data : List Byte)
    (r : WebCryptoResult) (hnull : algorithm.isNull = false) :
    (verifySignature B algorithm key signature data r).1 = Except.ok () ∧
    (completionsMade r (verifySignature B algorithm key signature data r) =
        [Completion.completeWithError] ↔
      (B.VerifySignatureInternal algorithm key signature data false).1 = false) ∧
    (∀ m, completionsMade r (verifySignature B algorithm key signature data r) =
        [Completion.completeWithBoolean m] ↔
      ((B.VerifySignatureInternal algorithm key signature data false).1 = true ∧
       (B.VerifySignatureInternal algorithm key signature data false).2 = m)) ∧
    (B.VerifySignatureInternal algorithm key signature data false = (true, false) →
      verifySignature B algorithm key signature data r =
        (Except.ok (), ⟨r.completions ++ [Completion.completeWithBoolean false]⟩)) := by
  rw [verifySignature_eq, if_neg (by simp [hnull])]
  rcases B.VerifySignatureInternal algorithm key signature data false with ⟨_ | _, m⟩
  · simp [completionsMade_append]
  · simp [completionsMade_append]

/-- Witness for C3: a well-formed signature that does not match the data gives
`Boolean(false)` with the sample backend. -/
theorem verifySignature_error_iff_backend_failure_witness :
    sampleAlgorithm.isNull = false ∧
    verifySignature sampleBackend sampleAlgorithm sampleKey [1, 2] [1, 3] freshResult =
      (Except.ok (), ⟨[Completion.completeWithBoolean false]⟩) :=
  ⟨rfl, (verifySignature_error_iff_backend_failure sampleBackend sampleAlgorithm sampleKey
    [1, 2] [1, 3] freshResult rfl).2.2.2 rfl⟩

/-- C4: with a non-null algorithm each of `encrypt`, `decrypt`, `digest` and `sign` is a
function of what its own backend routine gives on exactly the arguments of the verb (and
the null buffer the verb declares as output parameter): the call returns, and when the
routine reports success the one completion is `completeWithBuffer` carrying the very
buffer the routine left in the output parameter, so with the same length and bytes. -/
theorem buffer_verbs_deliver_backend_buffer (B : Backend) (algorithm : WebCryptoAlgorithm)
    (key : WebCryptoKey) (data : List Byte) (r : WebCryptoResult)
    (hnull : algorithm.isNull = false) :
    ((B.EncryptInternal algorithm key data WebArrayBuffer.null).1 = true →
      encrypt B algorithm key data r =
        (Except.ok (), ⟨r.completions ++ [Completion.completeWithBuffer
          (B.EncryptInternal algorithm key data WebArrayBuffer.null).2]⟩)) ∧
    ((B.DecryptInternal algorithm key data WebArrayBuffer.null).1 = true →
      decrypt B algorithm key data r =
        (Except.ok (), ⟨r.completions ++ [Completion.completeWithBuffer
          (B.DecryptInternal algorithm key data WebArrayBuffer.null).2]⟩)) ∧
    ((B.DigestInternal algorithm data WebArrayBuffer.null).1 = true →
      digest B algorithm data r =
        (Except.ok (), ⟨r.completions ++ [Completion.completeWithBuffer
          (B.DigestInternal algorithm data WebArrayBuffer.null).2]⟩)) ∧
    ((B.SignInternal algorithm key data WebArrayBuffer.null).1 = true →
      sign B algorithm key data r =
        (Except.ok (), ⟨r.completions ++ [Completion.completeWithBuffer
          (B.SignInternal algorithm key data WebArrayBuffer.null).2]⟩)) := by
  refine ⟨fun h => ?_, fun h => ?_, fun h => ?_, fun h => ?_⟩
  · rw [encrypt_eq, if_neg (by simp [hnull]), if_pos h]
  · rw [decrypt_eq, if_neg (by simp [hnull]), if_pos h]
  · rw [digest_eq, if_neg (by simp [hnull]), if_pos h]
  · rw [sign_eq, if_neg (by simp [hnull]), if_pos h]

/-- Witness for C4: the four verbs on three bytes with the sample backend. -/
theorem buffer_verbs_deliver_backend_buffer_witness :
    sampleAlgorithm.isNull = false ∧
    encrypt sampleBackend sampleAlgorithm sampleKey [7, 8, 9] freshResult =
      (Except.ok (), ⟨[Completion.completeWithBuffer ⟨some [7, 8, 9]⟩]⟩) ∧
    decrypt sampleBackend sampleAlgorithm sampleKey [7, 8, 9] freshResult =
      (Except.ok (), ⟨[Completion.completeWithBuffer ⟨some [7, 8, 9]⟩]⟩) ∧
    digest sampleBackend sampleAlgorithm [7, 8, 9] freshResult =
      (Except.ok (), ⟨[Completion.completeWithBuffer ⟨some [3]⟩]⟩) ∧
    sign sampleBackend sampleAlgorithm sampleKey [7, 8, 9] freshResult =
      (Except.ok (), ⟨[Completion.completeWithBuffer ⟨some [7, 8, 9]⟩]⟩) :=
  ⟨rfl,
    (buffer_verbs_deliver_backend_buffer sampleBackend sampleAlgorithm sampleKey [7, 8, 9]
      freshResult rfl).1 rfl,
    (buffer_verbs_deliver_backend_buffer sampleBackend sampleAlgorithm sampleKey [7, 8, 9]
      freshResult rfl).2.1 rfl,
    (buffer_verbs_deliver_backend_buffer sampleBackend sampleAlgorithm sampleKey [7, 8, 9]
      freshResult rfl).2.2.1 rfl,
    (buffer_verbs_deliver_backend_buffer sampleBackend sampleAlgorithm sampleKey [7, 8, 9]
      freshResult rfl).2.2.2 rfl⟩

/-- What `generateKey` has completed, by cases on the algorithm and on the backend. -/
theorem generateKey_made (B : Backend) (algorithm : WebCryptoAlgorithm) (extractable : Bool)
    (usage_mask : WebCryptoKeyUsageMask) (r : WebCryptoResult) :
    completionsMade r (generateKey B algorithm extractable usage_mask r) = [] ∨
    completionsMade r (generateKey B algorithm extractable usage_mask r) =
      [Completion.completeWithError] ∨
    (completionsMade r (generateKey B algorithm extractable usage_mask r) =
      [Completion.completeWithKey
        (B.GenerateKeyInternal algorithm extractable usage_mask NullKey).2] ∧
     ∃ p a b, (B.GenerateKeyInternal algorithm extractable usage_mask NullKey).2.priv = some p ∧
        p.handle.isSome = true ∧ algorithm.priv = some a ∧ p.algorithm.priv = some b ∧
        a.id = b.id ∧ p.extractable = extractable ∧ p.usages = usage_mask) := by
  cases hnull : algorithm.isNull
  · cases hB : (B.GenerateKeyInternal algorithm extractable usage_mask NullKey).1
    · rw [generateKey_of_failure B algorithm extractable usage_mask r hnull hB,
        completionsMade_append]
      exact Or.inr (Or.inl rfl)
    · rcases generateKey_of_success B algorithm extractable usage_mask r hnull hB with
        ⟨f, hf⟩ | ⟨hp, hk⟩
      · rw [hf, completionsMade_same]
        exact Or.inl rfl
      · rw [hk, completionsMade_append]
        exact Or.inr (Or.inr ⟨rfl, hp⟩)
  · rw [generateKey_of_null B algorithm extractable usage_mask r hnull, completionsMade_same]
    exact Or.inl rfl

/-- What `importKey` has completed, by cases on the backend. -/
theorem importKey_made (B : Backend) (format : WebCryptoKeyFormat) (key_data : List Byte)
    (algorithm_or_null : WebCryptoAlgorithm) (extractable : Bool)
    (usage_mask : WebCryptoKeyUsageMask) (r : WebCryptoResult) :
    completionsMade r
      (importKey B format key_data algorithm_or_null extractable usage_mask r) = [] ∨
    completionsMade r
      (importKey B format key_data algorithm_or_null extractable usage_mask r) =
      [Completion.completeWithError] ∨
    (completionsMade r
      (importKey B format key_data algorithm_or_null extractable usage_mask r) =
      [Completion.completeWithKey
        (B.ImportKeyInternal format key_data algorithm_or_null extractable usage_mask
          NullKey).2] ∧
     ∃ p b, (B.ImportKeyInternal format key_data algorithm_or_null extractable usage_mask
          NullKey).2.priv = some p ∧
        p.handle.isSome = true ∧ p.algorithm.priv = some b ∧ p.extractable = extractable) := by
  cases hB : (B.ImportKeyInternal format key_data algorithm_or_null extractable usage_mask
    NullKey).1
  · rw [importKey_of_failure B format key_data algorithm_or_null extractable usage_mask r hB,
      completionsMade_append]
    exact Or.inr (Or.inl rfl)
  · rcases importKey_of_success B format key_data algorithm_or_null extractable usage_mask
      r hB with ⟨f, hf⟩ | ⟨hp, hk⟩
    · rw [hf, completionsMade_same]
      exact Or.inl rfl
    · rw [hk, completionsMade_append]
      exact Or.inr (Or.inr ⟨rfl, hp⟩)

/-- C5: whenever `generateKey(alg, e, M)` completes with a key, the algorithm of that key
has the identifier of `alg` (which is then not null), its extractable flag is `e` and its
usage mask is `M`. -/
theorem generateKey_key_matches_request (B : Backend) (algorithm : WebCryptoAlgorithm)
    (extractable : Bool) (usage_mask : WebCryptoKeyUsageMask) (r : WebCryptoResult)
    (key : WebCryptoKey)
    (hkey : Completion.completeWithKey key ∈
      completionsMade r (generateKey B algorithm extractable usage_mask r)) :
    (∃ id, (WebCryptoAlgorithm.id algorithm : Except Fault WebCryptoAlgorithmId) = Except.ok id ∧
      (WebCryptoKey.algorithm key >>= WebCryptoAlgorithm.id : Except Fault WebCryptoAlgorithmId) = Except.ok id) ∧
    (WebCryptoKey.extractable key : Except Fault Bool) = Except.ok extractable ∧
    (WebCryptoKey.usages key : Except Fault WebCryptoKeyUsageMask) = Except.ok usage_mask := by
  rcases generateKey_made B algorithm extractable usage_mask r with h | h | ⟨h, p, a, b, hp⟩
  · rw [h] at hkey
    cases hkey
  · rw [h] at hkey
    simp at hkey
  · rw [h] at hkey
    simp only [List.mem_singleton, Completion.completeWithKey.injEq] at hkey
    subst hkey
    obtain ⟨hpriv, _, halg, hkalg, hid, hext, huse⟩ := hp
    rcases algorithm with ⟨ap⟩
    simp only at halg
    subst halg
    generalize B.GenerateKeyInternal ⟨some a⟩ extractable usage_mask NullKey = g at hpriv ⊢
    rcases g with ⟨ok, ⟨kp⟩⟩
    simp only at hpriv
    subst hpriv
    rcases p with ⟨ph, pt, pe, ⟨pa⟩, pu⟩
    simp only at hkalg hext huse
    subst hkalg hext huse
    exact ⟨⟨a.id, rfl, by rw [hid]; rfl⟩, rfl, rfl⟩

/-- Witness for C5: the sample backend generates an extractable key with usage mask 5. -/
theorem generateKey_key_matches_request_witness :
    generateKey sampleBackend sampleAlgorithm true 5 freshResult =
      (Except.ok (), ⟨[Completion.completeWithKey (WebCryptoKey.create (some 1)
        WebCryptoKeyType.WebCryptoKeyTypeSecret true sampleAlgorithm 5)]⟩) ∧
    (WebCryptoKey.extractable (WebCryptoKey.create (some 1)
        WebCryptoKeyType.WebCryptoKeyTypeSecret true sampleAlgorithm 5) : Except Fault Bool) =
      Except.ok true ∧
    (WebCryptoKey.usages (WebCryptoKey.create (some 1)
        WebCryptoKeyType.WebCryptoKeyTypeSecret true sampleAlgorithm 5) :
      Except Fault WebCryptoKeyUsageMask) = Except.ok 5 :=
  ⟨rfl, (generateKey_key_matches_request sampleBackend sampleAlgorithm true 5 freshResult
    (WebCryptoKey.create (some 1) WebCryptoKeyType.WebCryptoKeyTypeSecret true
      sampleAlgorithm 5) (List.mem_singleton.mpr rfl)).2⟩

/-- C6: whenever `importKey` completes with a key, for every format, key data, algorithm
(the null algorithm included), extractable flag `e` and usage mask, the algorithm of that
key is not null and its extractable flag is `e`. -/
theorem importKey_key_has_algorithm (B : Backend) (format : WebCryptoKeyFormat)
    (key_data : List Byte) (algorithm_or_null : WebCryptoAlgorithm) (extractable : Bool)
    (usage_mask : WebCryptoKeyUsageMask) (r : WebCryptoResult) (key : WebCryptoKey)
    (hkey : Completion.completeWithKey key ∈ completionsMade r
      (importKey B format key_data algorithm_or_null extractable usage_mask r)) :
    (∃ a, (WebCryptoKey.algorithm key : Except Fault WebCryptoAlgorithm) = Except.ok a ∧
      a.isNull = false) ∧
    (WebCryptoKey.extractable key : Except Fault Bool) = Except.ok extractable := by
  rcases importKey_made B format key_data algorithm_or_null extractable usage_mask r with
    h | h | ⟨h, p, b, hp⟩
  · rw [h] at hkey
    cases hkey
  · rw [h] at hkey
    simp at hkey
  · rw [h] at hkey
    simp only [List.mem_singleton, Completion.completeWithKey.injEq] at hkey
    subst hkey
    obtain ⟨hpriv, _, hkalg, hext⟩ := hp
    generalize B.ImportKeyInternal format key_data algorithm_or_null extractable usage_mask
      NullKey = g at hpriv ⊢
    rcases g with ⟨ok, ⟨kp⟩⟩
    simp only at hpriv
    subst hpriv
    rcases p with ⟨ph, pt, pe, ⟨pa⟩, pu⟩
    simp only at hkalg hext
    subst hkalg hext
    exact ⟨⟨_, rfl, rfl⟩, rfl⟩

/-- Witness for C6: import with the null algorithm; the sample backend infers AES-GCM. -/
theorem importKey_key_has_algorithm_witness :
    importKey sampleBackend 0 [1, 2, 3] ⟨none⟩ false 6 freshResult =
      (Except.ok (), ⟨[Completion.completeWithKey (WebCryptoKey.create (some 2)
        WebCryptoKeyType.WebCryptoKeyTypeSecret false
        (WebCryptoAlgorithm.adoptParamsAndCreate
          WebCryptoAlgorithmId.WebCryptoAlgorithmIdAesGcm none) 6)]⟩) ∧
    ((∃ a, (WebCryptoKey.algorithm (WebCryptoKey.create (some 2)
        WebCryptoKeyType.WebCryptoKeyTypeSecret false
        (WebCryptoAlgorithm.adoptParamsAndCreate
          WebCryptoAlgorithmId.WebCryptoAlgorithmIdAesGcm none) 6) :
          Except Fault WebCryptoAlgorithm) = Except.ok a ∧ a.isNull = false) ∧
     (WebCryptoKey.extractable (WebCryptoKey.create (some 2)
        WebCryptoKeyType.WebCryptoKeyTypeSecret false
        (WebCryptoAlgorithm.adoptParamsAndCreate
          WebCryptoAlgorithmId.WebCryptoAlgorithmIdAesGcm none) 6) : Except Fault Bool) =
      Except.ok false) :=
  ⟨rfl, importKey_key_has_algorithm sampleBackend 0 [1, 2, 3] ⟨none⟩ false 6 freshResult
    (WebCryptoKey.create (some 2) WebCryptoKeyType.WebCryptoKeyTypeSecret false
      (WebCryptoAlgorithm.adoptParamsAndCreate
        WebCryptoAlgorithmId.WebCryptoAlgorithmIdAesGcm none) 6)
    (List.mem_singleton.mpr rfl)⟩

/-- C7: the placeholder of `NullKey()` is never delivered. For every backend, every key
that a `generateKey` or an `importKey` call hands to `completeWithKey` has a non-null
handle, so it is not the placeholder; and when the backend reports success while leaving
the placeholder in the output parameter, the call stops at the handle check and makes no
completion at all. -/
theorem null_key_never_delivered (B : Backend) (r : WebCryptoResult) :
    (∀ algorithm extractable usage_mask key,
      Completion.completeWithKey key ∈
        completionsMade r (generateKey B algorithm extractable usage_mask r) →
      (∃ h, (WebCryptoKey.handle key : Except Fault WebCryptoKeyHandlePtr) = Except.ok (some h)) ∧
      key ≠ NullKey) ∧
    (∀ format key_data algorithm_or_null extractable usage_mask key,
      Completion.completeWithKey key ∈ completionsMade r
        (importKey B format key_data algorithm_or_null extractable usage_mask r) →
      (∃ h, (WebCryptoKey.handle key : Except Fault WebCryptoKeyHandlePtr) = Except.ok (some h)) ∧
      key ≠ NullKey) ∧
    (∀ algorithm extractable usage_mask,
      B.GenerateKeyInternal algorithm extractable usage_mask NullKey = (true, NullKey) →
      completionsMade r (generateKey B algorithm extractable usage_mask r) = []) ∧
    (∀ format key_data algorithm_or_null extractable usage_mask,
      B.ImportKeyInternal format key_data algorithm_or_null extractable usage_mask NullKey =
        (true, NullKey) →
      completionsMade r
        (importKey B format key_data algorithm_or_null extractable usage_mask r) = []) := by
  have handle_of : ∀ (key : WebCryptoKey) (p : WebCryptoKeyPrivate),
      key.priv = some p → p.handle.isSome = true →
      (∃ h, (WebCryptoKey.handle key : Except Fault WebCryptoKeyHandlePtr) = Except.ok (some h)) ∧
      key ≠ NullKey := by
    intro key p hpriv hh
    rcases key with ⟨kp⟩
    simp only at hpriv
    subst hpriv
    rcases p with ⟨_ | h, pt, pe, pa, pu⟩
    · simp at hh
    · refine ⟨⟨h, rfl⟩, ?_⟩
      intro hEq
      simp [NullKey, WebCryptoKey.create] at hEq
  refine ⟨?_, ?_, ?_, ?_⟩
  · intro algorithm extractable usage_mask key hkey
    rcases generateKey_made B algorithm extractable usage_mask r with
      h | h | ⟨h, p, a, b, hpriv, hh, _⟩
    · rw [h] at hkey
      cases hkey
    · rw [h] at hkey
      simp at hkey
    · rw [h] at hkey
      simp only [List.mem_singleton, Completion.completeWithKey.injEq] at hkey
      subst hkey
      exact handle_of _ p hpriv hh
  · intro format key_data algorithm_or_null extractable usage_mask key hkey
    rcases importKey_made B format key_data algorithm_or_null extractable usage_mask r with
      h | h | ⟨h, p, b, hpriv, hh, _⟩
    · rw [h] at hkey
      cases hkey
    · rw [h] at hkey
      simp at hkey
    · rw [h] at hkey
      simp only [List.mem_singleton, Completion.completeWithKey.injEq] at hkey
      subst hkey
      exact handle_of _ p hpriv hh
  · intro algorithm extractable usage_mask hB
    rcases generateKey_made B algorithm extractable usage_mask r with
      h | h | ⟨h, p, a, b, hpriv, hh, _⟩
    · exact h
    · cases hnull : algorithm.isNull
      · rcases generateKey_of_success B algorithm extractable usage_mask r hnull
          (by rw [hB]) with ⟨f, hf⟩ | ⟨⟨p, a, b, hpriv, hh, _⟩, _⟩
        · rw [hf, completionsMade_same]
        · rw [hB] at hpriv
          simp [NullKey, WebCryptoKey.create] at hpriv
          subst hpriv
          simp at hh
      · rw [generateKey_of_null B algorithm extractable usage_mask r hnull,
          completionsMade_same]
    · rw [hB] at hpriv
      simp [NullKey, WebCryptoKey.create] at hpriv
      subst hpriv
      simp at hh
  · intro format key_data algorithm_or_null extractable usage_mask hB
    rcases importKey_of_success B format key_data algorithm_or_null extractable usage_mask r
      (by rw [hB]) with ⟨f, hf⟩ | ⟨⟨p, b, hpriv, hh, _⟩, _⟩
    · rw [hf, completionsMade_same]
    · rw [hB] at hpriv
      simp [NullKey, WebCryptoKey.create] at hpriv
      subst hpriv
      simp at hh

/-- Witness for C7: the idle backend reports success without storing a key; both verbs
stop at the handle check and the result object stays without completion. The key the
sample backend generates is delivered and has a handle. -/
theorem null_key_never_delivered_witness :
    generateKey idleBackend sampleAlgorithm true 5 freshResult =
      (Except.error Fault.dcheck, freshResult) ∧
    importKey idleBackend 0 [1] sampleAlgorithm true 5 freshResult =
      (Except.error Fault.dcheck, freshResult) ∧
    completionsMade freshResult (generateKey idleBackend sampleAlgorithm true 5 freshResult)
      = [] ∧
    completionsMade freshResult
      (importKey idleBackend 0 [1] sampleAlgorithm true 5 freshResult) = [] ∧
    ((∃ h, (WebCryptoKey.handle (WebCryptoKey.create (some 1) WebCryptoKeyType.WebCryptoKeyTypeSecret
        false sampleAlgorithm 4) : Except Fault WebCryptoKeyHandlePtr) = Except.ok (some h)) ∧
      WebCryptoKey.create (some 1) WebCryptoKeyType.WebCryptoKeyTypeSecret
        false sampleAlgorithm 4 ≠ NullKey) :=
  ⟨rfl, rfl,
    (null_key_never_delivered idleBackend freshResult).2.2.1 sampleAlgorithm true 5 rfl,
    (null_key_never_delivered idleBackend freshResult).2.2.2 0 [1] sampleAlgorithm true 5 rfl,
    (null_key_never_delivered sampleBackend freshResult).1 sampleAlgorithm false 4
      (WebCryptoKey.create (some 1) WebCryptoKeyType.WebCryptoKeyTypeSecret
        false sampleAlgorithm 4) (List.mem_singleton.mpr rfl)⟩

/-- C8: for `new_size <= byteLength` the call `ShrinkBuffer(b, new_size)` returns, and
the buffer then has `byteLength` exactly `new_size` and holds the first `new_size` bytes
of the original; when `new_size = byteLength` it is the original buffer, unchanged. -/
theorem ShrinkBuffer_keeps_leading_bytes (buffer : WebArrayBuffer) (new_size : Nat)
    (hle : new_size ≤ buffer.byteLength) :
    ∃ shrunk, ShrinkBuffer buffer new_size = Except.ok shrunk ∧
      shrunk.byteLength = new_size ∧
      shrunk.data = buffer.data.take new_size ∧
      (new_size = buffer.byteLength → shrunk = buffer) := by
  rw [ShrinkBuffer_eq, if_pos hle]
  by_cases heq : new_size = buffer.byteLength
  · rw [if_pos heq]
    refine ⟨buffer, rfl, heq.symm, ?_, fun _ => rfl⟩
    rw [heq, ← data_length_eq_byteLength, List.take_length]
  · rw [if_neg heq]
    refine ⟨_, rfl, ?_, rfl, fun h => absurd h heq⟩
    rw [← data_length_eq_byteLength] at hle
    simp [WebArrayBuffer.byteLength, hle]

/-- Witness for C8: the bytes 0..9 shrunk to 4 are the bytes 0, 1, 2, 3. -/
theorem ShrinkBuffer_keeps_leading_bytes_witness :
    ShrinkBuffer tenBytes 4 = Except.ok ⟨some [0, 1, 2, 3]⟩ ∧
    ShrinkBuffer tenBytes 10 = Except.ok tenBytes ∧
    ∃ shrunk, ShrinkBuffer tenBytes 4 = Except.ok shrunk ∧
      shrunk.byteLength = 4 ∧
      shrunk.data = tenBytes.data.take 4 ∧
      (4 = tenBytes.byteLength → shrunk = tenBytes) :=
  ⟨rfl, rfl, ShrinkBuffer_keeps_leading_bytes tenBytes 4 (by decide)⟩

/-- C9: `ShrinkBuffer` never grows a buffer. For `new_size > byteLength` the check
`new_size <= byteLength` fails, which is fatal: the call stops and gives no buffer. So
whenever the call returns, the `byteLength` of the buffer is at most what it was. -/
theorem ShrinkBuffer_never_grows (buffer : WebArrayBuffer) (new_size : Nat) :
    (buffer.byteLength < new_size →
      ShrinkBuffer buffer new_size = Except.error Fault.dcheck) ∧
    (∀ shrunk, ShrinkBuffer buffer new_size = Except.ok shrunk →
      shrunk.byteLength ≤ buffer.byteLength) := by
  refine ⟨fun hlt => ?_, fun shrunk hret => ?_⟩
  · rw [ShrinkBuffer_eq, if_neg (Nat.not_le.mpr hlt)]
  · by_cases hle : new_size ≤ buffer.byteLength
    · rw [ShrinkBuffer_eq, if_pos hle] at hret
      split_ifs at hret with heq
      · cases hret
        exact Nat.le_refl _
      · cases hret
        show (List.take new_size buffer.data).length ≤ buffer.byteLength
        rw [List.length_take, data_length_eq_byteLength]
        exact Nat.min_le_right _ _
    · rw [ShrinkBuffer_eq, if_neg hle] at hret
      cases hret

/-- Witness for C9: growing the ten bytes to eleven is fatal; shrinking them to four
returns a buffer that is not longer. -/
theorem ShrinkBuffer_never_grows_witness :
    ShrinkBuffer tenBytes 11 = Except.error Fault.dcheck ∧
    (⟨some [0, 1, 2, 3]⟩ : WebArrayBuffer).byteLength ≤ tenBytes.byteLength :=
  ⟨(ShrinkBuffer_never_grows tenBytes 11).1 (by decide),
    (ShrinkBuffer_never_grows tenBytes 4).2 ⟨some [0, 1, 2, 3]⟩ rfl⟩

/-- C10: `verifySignature` fails closed on an unset match flag. With a non-null
algorithm, when `VerifySignatureInternal` reports success and leaves its output
parameter as it found it, the call completes with `Boolean(false)`, the value the flag
is given before the backend is invoked. And the call completes with `Boolean(true)` only
when the backend reported success and turned the flag from false to true itself. -/
theorem verifySignature_fails_closed (B : Backend) (algorithm : WebCryptoAlgorithm)
    (key : WebCryptoKey) (signature data : List Byte) (r : WebCryptoResult)
    (hnull : algorithm.isNull = false) :
    ((∀ entry, (B.VerifySignatureInternal algorithm key signature data entry).2 = entry) →
      (B.VerifySignatureInternal algorithm key signature data false).1 = true →
      verifySignature B algorithm key signature data r =
        (Except.ok (), ⟨r.completions ++ [Completion.completeWithBoolean false]⟩)) ∧
    (Completion.completeWithBoolean true ∈
        completionsMade r (verifySignature B algorithm key signature data r) →
      B.VerifySignatureInternal algorithm key signature data false = (true, true)) := by
  rw [verifySignature_eq, if_neg (by simp [hnull])]
  refine ⟨fun hkeep hok => ?_, fun hmem => ?_⟩
  · rw [if_pos hok, hkeep false]
  · revert hmem
    rcases B.VerifySignatureInternal algorithm key signature data false with ⟨_ | _, m⟩
    · simp [completionsMade_append]
    · simp [completionsMade_append]

/-- Witness for C10: the idle backend reports success and stores nothing; the call
completes with `Boolean(false)`. -/
theorem verifySignature_fails_closed_witness :
    sampleAlgorithm.isNull = false ∧
    verifySignature idleBackend sampleAlgorithm sampleKey [1, 2] [1, 2] freshResult =
      (Except.ok (), ⟨[Completion.completeWithBoolean false]⟩) ∧
    sampleBackend.VerifySignatureInternal sampleAlgorithm sampleKey [1, 2] [1, 2] false =
      (true, true) :=
  ⟨rfl,
    (verifySignature_fails_closed idleBackend sampleAlgorithm sampleKey [1, 2] [1, 2]
      freshResult rfl).1 (fun _ => rfl) rfl,
    (verifySignature_fails_closed sampleBackend sampleAlgorithm sampleKey [1, 2] [1, 2]
      freshResult rfl).2 (List.mem_singleton.mpr rfl)⟩

end content
